import Mathlib

/-!
Verification of the letter/goal lifecycle engine of the
SoulMail (Whispers to Myself) backend.

The development is a shallow embedding of the JavaScript source:

* models/letter.js        -> `Goal`, `Reflection`, `Letter`, the schema
                             validation (`goalValid`, `reflectionValid`,
                             `letterCoreValid`, `deliveredAtValidator`)
* models/user.js          -> `UserStats` (nested stats record, all Numbers,
                             `lastActivityDate` declared as Number, default 0)
* services/letterService  -> the lifecycle operations (`getLetterById`,
                             `createNewLetter`, `updateLetterDeliveryDate`,
                             `deleteLetter`, `addReflectionToLetter`,
                             `removeReflectionFromLetter`, `updateGoalStatus`,
                             `carryGoalForward`, `addGoalReflection`)
* services/userService.js `updateUserStats` -> `updateUserStats`

Modelling conventions, stated once here:

* Timestamps are `Int` milliseconds since the epoch, exactly the numeric
  value of a JS `Date`.  `new Date(undefined)` is an invalid date; a
  possibly-invalid date is `Option Int` with `none` for the invalid date
  (and for a missing value, which mongoose rejects via `required`).
* The persistence layer is modelled per the repository contract as an
  atomic per-document store: a `Store` is a list of letters,
  `Letter.findById` is first-match lookup, and `document.save()` is
  validate-then-write-back of the whole document (`saveLetter`) under
  mongoose's default versioning: letters carry the `__v` version key,
  saves that change an array's length increment it, and saves that set
  an array element by position filter on the version loaded with the
  document and throw a VersionError when the stored version has moved
  on.  `findByIdAndUpdate` applies its patch WITHOUT running schema
  validators, which is the mongoose default (`runValidators` is not set
  anywhere in the source).
* Mongoose strict mode (the default) silently discards writes to paths
  that are not declared in the schema.  This matters in three places of
  the source, each flagged by a comment at the corresponding definition.
* String setters: mongoose trims `trim: true` fields before validating,
  so the validators below test the trimmed value.
* The stats subsystem is reached through fire-and-forget wrappers that
  catch every error.  The wrappers receive a `StatsOracle` telling
  whether the underlying `userService.updateUserStats` call would throw;
  the catch block only logs, so the wrapper returns `Unit` either way.
-/

/-- Constant: 24 hours in milliseconds: the lead-time constant
(`tomorrow.setHours(tomorrow.getHours() + 24)` in the schema validator). -/
def DAY_MS : Int := 86400000

/-- Embeds `VALID_INTERVALS` from utils/dateCalculator.js:
`Object.values(DELIVERY_INTERVALS)`. -/
def VALID_INTERVALS : List String :=
  ["1week", "1month", "6months", "1year", "5years", "custom"]

/-- The mood enum of letterSchema (the empty string is a listed value). -/
def MOODS : List String := ["", "☺️", "😢", "😰", "🤩", "🙏", "😫"]

/-- The goal status enum of goalSchema. -/
def GOAL_STATUSES : List String :=
  ["pending", "completed", "inProgress", "abandoned", "carriedForward"]

/-- A goal subdocument (goalSchema in models/letter.js).  `id` is the
subdocument `_id` mongoose assigns.  `status` is kept as a raw string
because route input assigns an arbitrary string to it; the enum is
checked by save-time validation. -/
structure Goal where
  id : Nat
  text : String
  status : String := "pending"
  reflection : Option String := none
  carriedForwardTo : Option Nat := none
  carriedForwardFrom : Option Nat := none
  statusUpdatedAt : Option Int := none
  deriving Repr, DecidableEq

/-- A reflection subdocument (reflectionSchema in models/letter.js).
The text field is itself called `reflection` in the schema. -/
structure Reflection where
  id : Nat
  reflection : String
  date : Int
  deriving Repr, DecidableEq

/-- A letter document (letterSchema in models/letter.js).  `user` is the
owning user id (populate resolved).  `deliveredAt` is `Option Int`: `none`
is an invalid/missing date, which can never pass save-time validation. -/
structure Letter where
  id : Nat
  user : Nat
  title : String := "Untitled"
  content : String
  mood : Option String := none
  weather : Option String := none
  temperature : Option Int := none
  currentSong : Option String := none
  topHeadLine : Option String := none
  location : Option String := none
  goals : List Goal := []
  deliveryInterval : String
  deliveredAt : Option Int
  isDelivered : Bool := false
  reflections : List Reflection := []
  -- the mongoose version key `__v`, default 0; incremented by saves that
  -- change an array's length, checked in the filter of saves that touch
  -- an array element by position
  version : Nat := 0
  deriving Repr, DecidableEq

/-- The `trim: true` setter mongoose applies before validating, written
over the character list so that it evaluates by kernel reduction. -/
def jsTrim (s : String) : String :=
  ⟨((s.data.dropWhile Char.isWhitespace).reverse.dropWhile Char.isWhitespace).reverse⟩

/-- goalSchema validation: `text` required (nonempty after trim) and at
most 150 chars, `status` in the enum, `reflection` at most 500 chars. -/
def goalValid (g : Goal) : Bool :=
  jsTrim g.text ≠ "" && (jsTrim g.text).length ≤ 150 &&
  GOAL_STATUSES.contains g.status &&
  (match g.reflection with
   | none => true
   | some r => (jsTrim r).length ≤ 500)

/-- reflectionSchema validation: text required and at least 50 chars. -/
def reflectionValid (r : Reflection) : Bool :=
  jsTrim r.reflection ≠ "" && 50 ≤ (jsTrim r.reflection).length

/-- letterSchema validation for everything except the `deliveredAt`
date rule: title at most 100 chars, content required and at most 5000,
mood in the enum when present, every goal and reflection valid,
deliveryInterval required and in the enum. -/
def letterCoreValid (l : Letter) : Bool :=
  (jsTrim l.title).length ≤ 100 &&
  jsTrim l.content ≠ "" && (jsTrim l.content).length ≤ 5000 &&
  (match l.mood with
   | none => true
   | some m => MOODS.contains m) &&
  l.goals.all goalValid &&
  VALID_INTERVALS.contains l.deliveryInterval &&
  l.reflections.all reflectionValid

/-- The `deliveredAt` validator of letterSchema: the field is required
(an invalid date also fails), and when the document is new or the field
was modified the value must be at least 24 hours in the future
(`value >= tomorrow`); otherwise the date rule is skipped. -/
def deliveredAtValidator (now : Int) (isNewOrModified : Bool) (l : Letter) : Bool :=
  match l.deliveredAt with
  | none => false
  | some d => if isNewOrModified then decide (now + DAY_MS ≤ d) else true

/-- Validation run by `document.save()` on an already-persisted letter:
the document is not new and the service never modifies `deliveredAt`
through `save()`, so the date rule is skipped (only `required` remains). -/
def saveValidB (l : Letter) : Bool :=
  letterCoreValid l && l.deliveredAt.isSome

/-- Validation run by `Letter.create`: the document is new, so the full
lead-time rule applies. -/
def createValidB (now : Int) (l : Letter) : Bool :=
  letterCoreValid l && deliveredAtValidator now true l

/-- The error taxonomy of middleware/errorHandler.js plus the plain
`Error` and `ReferenceError` that the goal paths of the service throw. -/
inductive SvcError where
  | notFound (msg : String)
  | forbidden (msg : String)
  | validation (msg : String)
  | jsError (msg : String)
  | refError (msg : String)
  | versionError (msg : String)
  deriving Repr, DecidableEq

/-- The letter collection, per the repository contract: atomic
single-document reads and writes on a list of letters. -/
abbrev Store := List Letter

/-- Embeds `Letter.findById`: first letter with the given id. -/
def findById (store : Store) (id : Nat) : Option Letter :=
  store.find? (fun l => l.id == id)

/-- Write-back of a whole document under its id (`document.save()`
after validation). -/
def replaceById (store : Store) (l : Letter) : Store :=
  store.map (fun x => if x.id == l.id then l else x)

/-- Embeds `Letter.findByIdAndDelete`. -/
def deleteById (store : Store) (id : Nat) : Store :=
  store.filter (fun x => x.id != id)

/-- Embeds `document.save()`: runs validation (`validateBeforeSave` defaults to
true), then writes the whole document back under mongoose's DEFAULT
VERSIONING.  The change tracker decides two flags per save, passed here
explicitly at each call site: `versionWhere` is set when the save
modifies an array element by position (or removes elements) - the
update filter then carries the loaded document's `__v`, and when the
stored `__v` has moved on (a concurrent write bumped it) no document
matches and save() throws a VersionError; `versionInc` is set when the
save changes an array's length (push/pull) - the write then increments
`__v`, on the stored document and on the in-memory one.  A save that
touches no array (for example the delivery-flag flip) carries neither
flag.  Returns the new store and the post-save document. -/
def saveLetter (versionWhere versionInc : Bool) (l : Letter) (store : Store) :
    Except SvcError (Store × Letter) :=
  if saveValidB l then
    let saved := if versionInc then { l with version := l.version + 1 } else l
    if versionWhere then
      match findById store l.id with
      | some cur =>
        if cur.version == l.version then .ok (replaceById store saved, saved)
        else .error (.versionError "No matching document found")
      | none => .error (.versionError "No matching document found")
    else .ok (replaceById store saved, saved)
  else .error (.validation "Letter validation failed")

/-- Embeds `Letter.create`: validates as a new document, then inserts. -/
def createLetterDB (now : Int) (l : Letter) (store : Store) : Except SvcError Store :=
  if createValidB now l then .ok (store ++ [l])
  else .error (.validation "Letter validation failed")

/-- Embeds `findLetterOrFail` of the letter service: `NotFoundError` when the
id does not resolve. -/
def findLetterOrFail (store : Store) (letterId : Nat) : Except SvcError Letter :=
  match findById store letterId with
  | some l => .ok l
  | none => .error (.notFound "Letter not found")

/-- Embeds `verifyUserOwnsLetter`: `ForbiddenError` when the caller does not own
the letter. -/
def verifyUserOwnsLetter (letter : Letter) (userId : Nat) : Except SvcError Unit :=
  if letter.user == userId then .ok ()
  else .error (.forbidden "You do not have permission to access this letter")

/-- Embeds `ensureLetterIsNotDelivered`: `ForbiddenError` when already delivered. -/
def ensureLetterIsNotDelivered (letter : Letter) : Except SvcError Unit :=
  if letter.isDelivered then .error (.forbidden "Cannot edit a delivered letter")
  else .ok ()

/-- Embeds `ensureLetterIsDelivered`: custom `ValidationError` when not yet
delivered. -/
def ensureLetterIsDelivered (letter : Letter) : Except SvcError Unit :=
  if !letter.isDelivered then
    .error (.validation "Can only add reflections to delivered letters")
  else .ok ()

/-- The due test of `updateDeliveryStatusIfDue`:
`currentDate > deliveryDate`, a STRICT comparison.  An invalid stored
date compares as NaN, which is never greater. -/
def dueB (now : Int) (l : Letter) : Bool :=
  match l.deliveredAt with
  | some d => decide (now > d)
  | none => false

/-- Embeds `updateDeliveryStatusIfDue`: if the delivery date has strictly passed
and the letter is not yet marked delivered, flip the flag and save. -/
def updateDeliveryStatusIfDue (now : Int) (letter : Letter) (store : Store) :
    Except SvcError (Store × Letter) :=
  if dueB now letter && !letter.isDelivered then
    -- only `isDelivered` is modified: no array is touched, so the save
    -- carries neither version flag
    match saveLetter false false { letter with isDelivered := true } store with
    | .ok (store1, saved) => .ok (store1, saved)
    | .error e => .error e
  else .ok (store, letter)

/-- Outcome oracle for `userService.updateUserStats`: given the truthy
keys of the update object the caller passes, either the call returns or
it throws. -/
abbrev StatsOracle := List String → Except String Unit

/-- The update object passed by `updateUserStatsAfterLetterCreated`. -/
def letterCreatedKeys : List String := ["incrementLetters", "updateStreak"]

/-- The update object passed by `updateUserStatsAfterReflectionAdded`.
The source writes the key `incrementsReflections` (sic). -/
def reflectionAddedKeys : List String := ["incrementsReflections"]

/-- Embeds `updateUserStatsAfterLetterCreated`: the stats call is wrapped in
try/catch whose catch block only logs, so the wrapper returns normally
whether or not the stats call throws. -/
def updateUserStatsAfterLetterCreated (oracle : StatsOracle) : Unit :=
  match oracle letterCreatedKeys with
  | .ok _ => ()
  | .error _ => ()

/-- Embeds `updateUserStatsAfterReflectionAdded`: same try/catch shape. -/
def updateUserStatsAfterReflectionAdded (oracle : StatsOracle) : Unit :=
  match oracle reflectionAddedKeys with
  | .ok _ => ()
  | .error _ => ()

/-- The creation payload (`req.body` of POST /letters).  Every field is
optional in JSON; `user` may even be supplied and is overridden. -/
structure LetterPayload where
  title : Option String := none
  content : Option String := none
  mood : Option String := none
  weather : Option String := none
  temperature : Option Int := none
  currentSong : Option String := none
  topHeadLine : Option String := none
  location : Option String := none
  goals : List Goal := []
  deliveryInterval : Option String := none
  deliveredAt : Option Int := none
  isDelivered : Option Bool := none
  user : Option Nat := none
  reflections : List Reflection := []
  deriving Repr, DecidableEq

/-- Embeds `prepareLetterData` of the letter service, combined with the schema
defaults that `Letter.create` applies while casting.  The source
destructures `deliveredAt` and `deliveryInterval` out of the payload and
spreads the REST, so a payload-supplied `isDelivered` passes through;
`user` is assigned after the spread and always wins.
`deliveryInterval || DELIVERY_INTERVALS.CUSTOM_DATE` treats the empty
string as falsy.  `new Date(deliveredAt)` is the invalid date when the
payload omits `deliveredAt`.  The temporal policy
(`calculateFutureDate`) is NOT consulted: per the source comment, the
frontend computes `deliveredAt` and the backend just validates and
stores it. -/
def prepareLetterData (userId freshId : Nat) (p : LetterPayload) : Letter :=
  { id := freshId
    user := userId
    title := p.title.getD "Untitled"
    content := p.content.getD ""
    mood := p.mood
    weather := p.weather
    temperature := p.temperature
    currentSong := p.currentSong
    topHeadLine := p.topHeadLine
    location := p.location
    goals := p.goals
    deliveryInterval :=
      match p.deliveryInterval with
      | none => "custom"
      | some s => if s == "" then "custom" else s
    deliveredAt := p.deliveredAt
    isDelivered := p.isDelivered.getD false
    reflections := p.reflections }

/-- Embeds `getLetterById` (view): find, ownership check, lazy delivery flip. -/
def getLetterById (now : Int) (store : Store) (userId letterId : Nat) :
    Except SvcError (Store × Letter) :=
  match findLetterOrFail store letterId with
  | .error e => .error e
  | .ok letter =>
    match verifyUserOwnsLetter letter userId with
    | .error e => .error e
    | .ok _ => updateDeliveryStatusIfDue now letter store

/-- Embeds `createNewLetter`: prepare, `Letter.create`, then the fire-and-forget
stats event.  Returns the new store, the list of dispatched stats update
objects, and the created letter. -/
def createNewLetter (oracle : StatsOracle) (now : Int) (freshId : Nat)
    (store : Store) (userId : Nat) (p : LetterPayload) :
    Except SvcError (Store × List (List String) × Letter) :=
  let prepared := prepareLetterData userId freshId p
  match createLetterDB now prepared store with
  | .error e => .error e
  | .ok store1 =>
    let _ := updateUserStatsAfterLetterCreated oracle
    .ok (store1, [letterCreatedKeys], prepared)

/-- Embeds `updateLetterDeliveryDate` (reschedule): find, ownership check,
already-delivered check, then `findByIdAndUpdate` on `deliveredAt`.
`findByIdAndUpdate` does not run schema validators (mongoose default),
so the patch is applied unconditionally. -/
def updateLetterDeliveryDate (now : Int) (store : Store)
    (userId letterId : Nat) (newDate : Int) :
    Except SvcError (Store × Letter) :=
  match findLetterOrFail store letterId with
  | .error e => .error e
  | .ok letter =>
    match verifyUserOwnsLetter letter userId with
    | .error e => .error e
    | .ok _ =>
      match ensureLetterIsNotDelivered letter with
      | .error e => .error e
      | .ok _ =>
        let updated := { letter with deliveredAt := some newDate }
        .ok (replaceById store updated, updated)

/-- Embeds `deleteLetter`: find, ownership check, `findByIdAndDelete`. -/
def deleteLetter (store : Store) (userId letterId : Nat) :
    Except SvcError (Store × String) :=
  match findLetterOrFail store letterId with
  | .error e => .error e
  | .ok letter =>
    match verifyUserOwnsLetter letter userId with
    | .error e => .error e
    | .ok _ => .ok (deleteById store letterId, "Letter deleted successfully")

/-- The reflection body of POST /letters/:id/reflection
(reflectionSchema casts it; `date` defaults to now). -/
structure ReflectionInput where
  reflection : String := ""
  date : Option Int := none
  deriving Repr, DecidableEq

/-- Embeds `addReflectionToLetter`: find, ownership check, delivered check,
push, save (which validates the 50-char minimum), stats event. -/
def addReflectionToLetter (oracle : StatsOracle) (now : Int) (freshId : Nat)
    (store : Store) (userId letterId : Nat) (input : ReflectionInput) :
    Except SvcError (Store × List (List String) × Letter) :=
  match findLetterOrFail store letterId with
  | .error e => .error e
  | .ok letter =>
    match verifyUserOwnsLetter letter userId with
    | .error e => .error e
    | .ok _ =>
      match ensureLetterIsDelivered letter with
      | .error e => .error e
      | .ok _ =>
        let newReflection : Reflection :=
          { id := freshId, reflection := input.reflection, date := input.date.getD now }
        let letter1 := { letter with reflections := letter.reflections ++ [newReflection] }
        -- the push changes the array length: the save increments `__v`
        match saveLetter false true letter1 store with
        | .error e => .error e
        | .ok (store1, saved) =>
          let _ := updateUserStatsAfterReflectionAdded oracle
          .ok (store1, [reflectionAddedKeys], saved)

/-- Embeds `removeReflectionFromLetter`: find, ownership check (no delivery
gating), `reflections.pull` by id (no-op-safe), save. -/
def removeReflectionFromLetter (store : Store)
    (userId letterId reflectionId : Nat) :
    Except SvcError (Store × Letter) :=
  match findLetterOrFail store letterId with
  | .error e => .error e
  | .ok letter =>
    match verifyUserOwnsLetter letter userId with
    | .error e => .error e
    | .ok _ =>
      let letter1 :=
        { letter with reflections := letter.reflections.filter (fun r => r.id != reflectionId) }
      -- the pull removes elements: the save both checks and increments `__v`
      match saveLetter true true letter1 store with
      | .error e => .error e
      | .ok (store1, saved) => .ok (store1, saved)

/-- The body of PUT /letters/:id/goals/:goalId/status. -/
structure StatusData where
  status : String
  reflection : Option String := none
  deriving Repr, DecidableEq

/-- The per-goal mutation of `updateGoalStatus`.  The source assigns
`goal.statusUpdateAt = new Date()` - note the missing `d`: `statusUpdateAt`
is not a goalSchema path, so strict mode drops it and the schema field
`statusUpdatedAt` is left untouched.  `if (statusData.reflection)` is a
truthiness test, so an empty string does not overwrite. -/
def applyStatusData (sd : StatusData) (g : Goal) : Goal :=
  let g1 := { g with status := sd.status }
  match sd.reflection with
  | some r => if r ≠ "" then { g1 with reflection := some r } else g1
  | none => g1

/-- Embeds `updateGoalStatus`: find, ownership check, delivered check, goal
lookup (plain `Error` when absent), mutate, save.  After a successful
save the source tests statusData.status against `accomplished` - a value
that is not even in the status enum, so the branch is unreachable
(save-time validation rejects it first); were it reached, it would call
`updatUserStatusAfterGoalAccomplished`, an identifier that is defined
nowhere, raising a ReferenceError.  For the enum value `completed`
nothing is dispatched, so the returned event list is empty. -/
def updateGoalStatus (now : Int) (store : Store)
    (userId letterId goalId : Nat) (sd : StatusData) :
    Except SvcError (Store × List (List String) × Letter) :=
  match findLetterOrFail store letterId with
  | .error e => .error e
  | .ok letter =>
    match verifyUserOwnsLetter letter userId with
    | .error e => .error e
    | .ok _ =>
      match ensureLetterIsDelivered letter with
      | .error e => .error e
      | .ok _ =>
        match letter.goals.find? (fun g => g.id == goalId) with
        | none => .error (.jsError "Goal not found")
        | some _ =>
          let letter1 :=
            { letter with goals :=
                letter.goals.map (fun g => if g.id == goalId then applyStatusData sd g else g) }
          -- a goal field is set by position: the save filters on the
          -- loaded `__v` (no length change, so no increment)
          match saveLetter true false letter1 store with
          | .error e => .error e
          | .ok (store1, saved) =>
            if sd.status == "accomplished" then
              .error (.refError "updatUserStatusAfterGoalAccomplished is not defined")
            else
              .ok (store1, [], saved)

/-- The goal subdocument built by the push inside `carryGoalForward`.
The source object literal is
`text, status pending, carriedFowardFrom: oldLetterId` -
note the missing `r` in `carriedFoward`: that key is not a goalSchema
path, so strict mode discards it and the stored subdocument has NO
`carriedForwardFrom` value.  Mongoose assigns the fresh subdocument id. -/
def carriedGoalPush (freshGoalId : Nat) (g : Goal) : Goal :=
  { id := freshGoalId
    text := g.text
    status := "pending"
    reflection := none
    carriedForwardTo := none
    carriedForwardFrom := none
    statusUpdatedAt := none }

/-- Embeds `carryGoalForward`: resolve and ownership-check BOTH letters, look
the goal up on the source letter, push the (field-dropped) copy onto the
target and save it, then flip the source goal to `carriedForward` with
`carriedForwardTo` and `statusUpdatedAt` and save the source letter.
The source letter instance was loaded before the target was saved, so
when both ids name the same letter the second write-back is based on the
pre-push snapshot. -/
def carryGoalForward (now : Int) (freshGoalId : Nat) (store : Store)
    (userId oldLetterId goalId newLetterId : Nat) :
    Except SvcError (Store × Letter × Letter) :=
  match findLetterOrFail store oldLetterId with
  | .error e => .error e
  | .ok oldLetter =>
    match verifyUserOwnsLetter oldLetter userId with
    | .error e => .error e
    | .ok _ =>
      match findLetterOrFail store newLetterId with
      | .error e => .error e
      | .ok newLetter =>
        match verifyUserOwnsLetter newLetter userId with
        | .error e => .error e
        | .ok _ =>
          match oldLetter.goals.find? (fun g => g.id == goalId) with
          | none => .error (.jsError "Goal not found")
          | some goal =>
            let newLetter1 :=
              { newLetter with goals := newLetter.goals ++ [carriedGoalPush freshGoalId goal] }
            -- the push changes the array length: this save increments `__v`
            match saveLetter false true newLetter1 store with
            | .error e => .error e
            | .ok (store1, newSaved) =>
              let updatedGoal :=
                { goal with status := "carriedForward"
                            carriedForwardTo := some newLetterId
                            statusUpdatedAt := some now }
              let oldLetter1 :=
                { oldLetter with goals :=
                    oldLetter.goals.map (fun g => if g.id == goalId then updatedGoal else g) }
              -- positional goal-field set on a document loaded BEFORE the
              -- first save: the filter carries the stale `__v`, so when both
              -- ids name the same letter the first save has already bumped
              -- the stored version and this save throws a VersionError
              match saveLetter true false oldLetter1 store1 with
              | .error e => .error e
              | .ok (store2, oldSaved) => .ok (store2, oldSaved, newSaved)

/-- Embeds `addGoalReflection`: find, ownership check, delivered check, goal
lookup, assign the reflection verbatim (an absent body field unsets it),
save. -/
def addGoalReflection (store : Store)
    (userId letterId goalId : Nat) (reflection : Option String) :
    Except SvcError (Store × Letter) :=
  match findLetterOrFail store letterId with
  | .error e => .error e
  | .ok letter =>
    match verifyUserOwnsLetter letter userId with
    | .error e => .error e
    | .ok _ =>
      match ensureLetterIsDelivered letter with
      | .error e => .error e
      | .ok _ =>
        match letter.goals.find? (fun g => g.id == goalId) with
        | none => .error (.jsError "Goal not found")
        | some _ =>
          let letter1 :=
            { letter with goals :=
                letter.goals.map (fun g =>
                  if g.id == goalId then { g with reflection := reflection } else g) }
          -- positional goal-field set: version filter, no increment
          match saveLetter true false letter1 store with
          | .error e => .error e
          | .ok (store1, saved) => .ok (store1, saved)

/-- The user stats record (models/user.js).  Every field is a mongoose
Number, including `lastActivityDate` (declared `type: Number, default: 0`;
the `$set` of a `Date` is cast to its millisecond value).  The default 0
is falsy, which `updateUserStats` reads as "no prior activity". -/
structure UserStats where
  totalLetters : Int := 0
  totalReflections : Int := 0
  currentStreak : Int := 0
  longestStreak : Int := 0
  lastActivityDate : Int := 0
  goalsAccomplished : Int := 0
  deriving Repr, DecidableEq

/-- Application of one `$inc` entry to the stats record, by schema path.
Strict mode drops paths that are not in the schema: in particular
`stats.totalRefletions` (sic, written by the `incrementReflections`
branch) and `stats.totalLetters.goalsCompleted` (an invalid sub-path of
a Number, written by the `incrementGoalsCompleted` branch) both fall
through to the catch-all and change nothing. -/
def statsIncPath (s : UserStats) (path : String) (v : Int) : UserStats :=
  if path == "stats.totalLetters" then { s with totalLetters := s.totalLetters + v }
  else if path == "stats.totalReflections" then { s with totalReflections := s.totalReflections + v }
  else if path == "stats.currentStreak" then { s with currentStreak := s.currentStreak + v }
  else if path == "stats.longestStreak" then { s with longestStreak := s.longestStreak + v }
  else if path == "stats.goalsAccomplished" then { s with goalsAccomplished := s.goalsAccomplished + v }
  else s

/-- The `updateObj` built by `userService.updateUserStats` before the
database call, as the list of path/value pairs in insertion order.
`statUpdates` is the set of truthy keys of the caller object (reading a
missing key of a JS object yields undefined, i.e. falsy).  The streak
branch computes REPLACEMENT values - `currentStreak + 1`, the raised
`longestStreak`, the reset 1 - and stores them in this object.
`daysDiff` is `Math.floor((today - lastActivity) / 86400000)`, floor
division of the elapsed milliseconds. -/
def buildStatUpdateObj (now : Int) (stats : UserStats) (keys : List String) :
    List (String × Int) :=
  (if keys.contains "incrementLetters" then [("stats.totalLetters", 1)] else []) ++
  (if keys.contains "incrementReflections" then [("stats.totalRefletions", 1)] else []) ++
  (if keys.contains "incrementGoalsCompleted" then [("stats.totalLetters.goalsCompleted", 1)] else []) ++
  (if keys.contains "updateStreak" then
    (if stats.lastActivityDate ≠ 0 then
      (let daysDiff := Int.fdiv (now - stats.lastActivityDate) 86400000
       if daysDiff == 1 then
         ("stats.currentStreak", stats.currentStreak + 1) ::
         (if stats.currentStreak + 1 > stats.longestStreak then
            [("stats.longestStreak", stats.currentStreak + 1)]
          else [])
       else if daysDiff > 1 then [("stats.currentStreak", 1)]
       else [])
     else [("stats.currentStreak", 1)])
   else [])

/-- Embeds `userService.updateUserStats`: the whole `updateObj` is passed to the
database as `$inc: updateObj` - the computed values are applied as
INCREMENTS - together with `$set: stats.lastActivityDate = new Date()`.
(When `updateObj` is empty the `$inc` clause is deleted, which an empty
fold also models.) -/
def updateUserStats (now : Int) (stats : UserStats) (keys : List String) : UserStats :=
  let updateObj := buildStatUpdateObj now stats keys
  let s1 := updateObj.foldl (fun s kv => statsIncPath s kv.1 kv.2) stats
  { s1 with lastActivityDate := now }

/-- The lifecycle operations of the letter service, one constructor per
exported letter operation, carrying the caller id, the target arguments
and the fresh ids the persistence layer would mint. -/
inductive Op where
  | view (userId letterId : Nat)
  | create (userId freshId : Nat) (p : LetterPayload)
  | reschedule (userId letterId : Nat) (newDate : Int)
  | destroy (userId letterId : Nat)
  | addReflection (userId letterId freshId : Nat) (input : ReflectionInput)
  | removeReflection (userId letterId reflectionId : Nat)
  | setGoalStatus (userId letterId goalId : Nat) (sd : StatusData)
  | carryForward (userId oldLetterId goalId newLetterId freshGoalId : Nat)
  | setGoalReflection (userId letterId goalId : Nat) (reflection : Option String)
  deriving Repr

/-- The caller identity of an operation. -/
def Op.caller : Op → Nat
  | .view u _ => u
  | .create u _ _ => u
  | .reschedule u _ _ => u
  | .destroy u _ => u
  | .addReflection u _ _ _ => u
  | .removeReflection u _ _ => u
  | .setGoalStatus u _ _ _ => u
  | .carryForward u _ _ _ _ => u
  | .setGoalReflection u _ _ _ => u

/-- The ids of the letters an operation resolves and ownership-checks. -/
def Op.letterTargets : Op → List Nat
  | .view _ l => [l]
  | .create _ _ _ => []
  | .reschedule _ l _ => [l]
  | .destroy _ l => [l]
  | .addReflection _ l _ _ => [l]
  | .removeReflection _ l _ => [l]
  | .setGoalStatus _ l _ _ => [l]
  | .carryForward _ oldL _ newL _ => [oldL, newL]
  | .setGoalReflection _ l _ _ => [l]

/-- Dispatch an operation against a store, keeping only the resulting
store (the per-operation return payloads differ). -/
def runOp (oracle : StatsOracle) (now : Int) (store : Store) : Op → Except SvcError Store
  | .view u l =>
    match getLetterById now store u l with
    | .ok p => .ok p.1
    | .error e => .error e
  | .create u fid p =>
    match createNewLetter oracle now fid store u p with
    | .ok r => .ok r.1
    | .error e => .error e
  | .reschedule u l d =>
    match updateLetterDeliveryDate now store u l d with
    | .ok p => .ok p.1
    | .error e => .error e
  | .destroy u l =>
    match deleteLetter store u l with
    | .ok p => .ok p.1
    | .error e => .error e
  | .addReflection u l fid input =>
    match addReflectionToLetter oracle now fid store u l input with
    | .ok r => .ok r.1
    | .error e => .error e
  | .removeReflection u l rid =>
    match removeReflectionFromLetter store u l rid with
    | .ok p => .ok p.1
    | .error e => .error e
  | .setGoalStatus u l g sd =>
    match updateGoalStatus now store u l g sd with
    | .ok r => .ok r.1
    | .error e => .error e
  | .carryForward u oldL g newL fid =>
    match carryGoalForward now fid store u oldL g newL with
    | .ok r => .ok r.1
    | .error e => .error e
  | .setGoalReflection u l g r =>
    match addGoalReflection store u l g r with
    | .ok p => .ok p.1
    | .error e => .error e

deriving instance DecidableEq for Except

/-- Boolean success test for a service result. -/
def isOkB {α : Type} : Except SvcError α → Bool
  | .ok _ => true
  | .error _ => false

/-! ## Concrete fixtures used by the closed evaluation theorems -/

/-- An oracle for which the stats call always succeeds. -/
def oracleOk : StatsOracle := fun _ => .ok ()

/-- An oracle for which the stats call always throws. -/
def oracleThrow : StatsOracle := fun _ => .error "stats update failed"

/-- A pending goal on the demo source letter. -/
def demoGoal : Goal := { id := 1, text := "Exercise three times a week" }

/-- A delivered letter of user 1 carrying `demoGoal`. -/
def demoDeliveredLetter : Letter :=
  { id := 1, user := 1, content := "Dear future me, keep going.",
    goals := [demoGoal], deliveryInterval := "1month",
    deliveredAt := some 0, isDelivered := true }

/-- A second letter of user 1 (the carry-forward target). -/
def demoTargetLetter : Letter :=
  { id := 2, user := 1, content := "Next month goals.",
    deliveryInterval := "1month", deliveredAt := some (30 * DAY_MS) }

/-- An undelivered letter of user 1 with delivery a long way out. -/
def demoUndeliveredLetter : Letter :=
  { id := 3, user := 1, content := "See you in a month.",
    deliveryInterval := "1month", deliveredAt := some (30 * DAY_MS) }

/-! ## C1 -/

/-- Claim C1 evaluation at its three scenarios.  The streak branch of
`updateUserStats` computes the replacement values the spec describes
(4 and 4; reset to 1) but the service applies the whole update object
with the increment operator, so with
`currentStreak = longestStreak = 3` and `lastActivityDate` exactly one
day old a letter-created event leaves `currentStreak = 3 + 4 = 7` and
`longestStreak = 3 + 4 = 7`, not 4 and 4; with `lastActivityDate` five
days old it leaves `currentStreak = 3 + 1 = 4`, not the reset value 1
(`longestStreak` is indeed unchanged); with `lastActivityDate` the same
day both counters are unchanged and `lastActivityDate` is refreshed,
as claimed. -/
theorem streak_update_applied_as_increment_eval :
    updateUserStats (10 * 86400000)
      { currentStreak := 3, longestStreak := 3, lastActivityDate := 9 * 86400000 }
      letterCreatedKeys =
      { totalLetters := 1, currentStreak := 7, longestStreak := 7,
        lastActivityDate := 10 * 86400000 } ∧
    updateUserStats (10 * 86400000)
      { currentStreak := 3, longestStreak := 3, lastActivityDate := 5 * 86400000 }
      letterCreatedKeys =
      { totalLetters := 1, currentStreak := 4, longestStreak := 3,
        lastActivityDate := 10 * 86400000 } ∧
    updateUserStats (10 * 86400000)
      { currentStreak := 3, longestStreak := 3, lastActivityDate := 10 * 86400000 - 1000 }
      letterCreatedKeys =
      { totalLetters := 1, currentStreak := 3, longestStreak := 3,
        lastActivityDate := 10 * 86400000 } := by
  refine ⟨?_, ?_, ?_⟩ <;> rfl

/-! ## C2 -/

/-- Claim C2 evaluation.  Carrying `demoGoal` from letter 1 to letter 2
does set the source goal to `carriedForward` with
`carriedForwardTo = 2` and appends exactly one pending goal with the
same text to the target - but the appended goal has NO
`carriedForwardFrom` (the source writes the misspelled key
`carriedFowardFrom`, which the goal schema drops), where the claim
requires `carriedForwardFrom = 1`. -/
theorem carry_goal_forward_field_drop_eval :
    carryGoalForward 5000 2 [demoDeliveredLetter, demoTargetLetter] 1 1 1 2 =
      .ok
        ([{ demoDeliveredLetter with goals :=
              [{ demoGoal with status := "carriedForward",
                               carriedForwardTo := some 2,
                               statusUpdatedAt := some 5000 }] },
          { demoTargetLetter with goals :=
              [{ id := 2, text := "Exercise three times a week",
                 status := "pending",
                 carriedForwardFrom := none }], version := 1 }],
         { demoDeliveredLetter with goals :=
             [{ demoGoal with status := "carriedForward",
                              carriedForwardTo := some 2,
                              statusUpdatedAt := some 5000 }] },
         { demoTargetLetter with goals :=
             [{ id := 2, text := "Exercise three times a week",
                status := "pending",
                carriedForwardFrom := none }], version := 1 }) := by
  decide

/-! ## C3 -/

/-- Claim C3 evaluation.  Rescheduling the undelivered demo letter to
`newDate = now` (far less than now + 24h) SUCCEEDS and persists the new
date: `findByIdAndUpdate` skips the schema validator, so no lead-time
check runs on reschedule. -/
theorem reschedule_skips_lead_time_eval :
    updateLetterDeliveryDate 1000 [demoUndeliveredLetter] 1 3 1000 =
      .ok ([{ demoUndeliveredLetter with deliveredAt := some 1000 }],
           { demoUndeliveredLetter with deliveredAt := some 1000 }) ∧
    (1000 : Int) < 1000 + DAY_MS := by
  exact ⟨rfl, by decide⟩

/-! ## C5 -/

/-- Claim C5 evaluation.  Updating `demoGoal` on the delivered demo
letter to `completed` (with a reflection supplied) sets the status and
overwrites the reflection, but leaves `statusUpdatedAt` unset (the
source assigns the misspelled non-schema path `statusUpdateAt`) and
dispatches NO stats event (the source compares the status against
`accomplished`, a value outside the enum, so the goals-accomplished
event is unreachable for `completed`). -/
theorem update_goal_status_typo_eval :
    updateGoalStatus 7777 [demoDeliveredLetter] 1 1 1
      { status := "completed", reflection := some "Done and proud of it" } =
      .ok
        ([{ demoDeliveredLetter with goals :=
              [{ demoGoal with status := "completed",
                               reflection := some "Done and proud of it",
                               statusUpdatedAt := none }] }],
         [],
         { demoDeliveredLetter with goals :=
             [{ demoGoal with status := "completed",
                              reflection := some "Done and proud of it",
                              statusUpdatedAt := none }] }) := by
  decide

/-! ## C4 counterexample -/

/-- A creation payload that smuggles `isDelivered = true` in. -/
def smuggledPayload : LetterPayload :=
  { content := some "Hello future self",
    deliveryInterval := some "1week",
    deliveredAt := some (2 * DAY_MS),
    isDelivered := some true }

/-- Counterexample to claim C4 as stated: `prepareLetterData` spreads
the payload rest (only `deliveredAt` and `deliveryInterval` are
destructured out), so a payload-supplied `isDelivered: true` is
persisted as true, not forced to false. -/
theorem create_letter_is_delivered_passthrough_cex :
    createNewLetter oracleOk 0 7 [] 1 smuggledPayload =
      .ok
        ([{ id := 7, user := 1, content := "Hello future self",
            deliveryInterval := "1week", deliveredAt := some (2 * DAY_MS),
            isDelivered := true }],
         [letterCreatedKeys],
         { id := 7, user := 1, content := "Hello future self",
           deliveryInterval := "1week", deliveredAt := some (2 * DAY_MS),
           isDelivered := true }) := by
  decide

/-! ## C6 counterexample -/

/-- An undelivered letter whose delivery instant is exactly t = 1000. -/
def boundaryLetter : Letter :=
  { id := 4, user := 1, content := "Boundary check.",
    deliveryInterval := "custom", deliveredAt := some 1000 }

/-- Counterexample to claim C6 as stated: at `now = deliveredAt` the
claim requires the flip (now ≥ deliveredAt), but the source tests
`currentDate > deliveryDate` strictly, so viewing the letter at exactly
its delivery instant neither flips the flag nor writes. -/
theorem view_boundary_no_flip_cex :
    getLetterById 1000 [boundaryLetter] 1 4 = .ok ([boundaryLetter], boundaryLetter) ∧
    boundaryLetter.isDelivered = false ∧
    boundaryLetter.deliveredAt = some 1000 := by
  exact ⟨rfl, rfl, rfl⟩

/-! ## C7 counterexample -/

/-- A creation payload giving only a symbolic interval, no date. -/
def intervalOnlyPayload : LetterPayload :=
  { content := some "Hello future self", deliveryInterval := some "1week" }

/-- Counterexample to claim C7 as stated: with an interval but no
concrete `deliveredAt`, create does NOT resolve the date via the
temporal policy (which would give now + 7 days = 604800000); it casts
the missing payload value to an invalid date and creation fails
validation, persisting nothing. -/
theorem create_interval_only_fails_cex :
    createNewLetter oracleOk 0 7 [] 1 intervalOnlyPayload =
      .error (.validation "Letter validation failed") := by
  rfl

/-! ## C8 -/

/-- Claim C8: the two lifecycle operations that dispatch a stats update
(create letter, add reflection) wrap the dispatch in a try/catch whose
catch block only logs, so their outcome is identical whatever the stats
subsystem does - in particular a throwing stats update never turns a
success into a failure.  (The goal-completed path dispatches no stats
update at all in the source - the comparison against `accomplished`
can never fire - so `updateGoalStatus` takes no stats oracle in this
embedding and trivially cannot propagate a stats failure.) -/
theorem stats_failure_never_propagated
    (oracle : StatsOracle) (now : Int) (freshId : Nat) (store : Store)
    (userId letterId : Nat) (p : LetterPayload) (input : ReflectionInput) :
    createNewLetter oracle now freshId store userId p =
      createNewLetter oracleOk now freshId store userId p ∧
    addReflectionToLetter oracle now freshId store userId letterId input =
      addReflectionToLetter oracleOk now freshId store userId letterId input := by
  exact ⟨rfl, rfl⟩

/-! ## C4 amended -/

/-- Claim C4 as amended: every letter persisted by create has
`user = callerId` (the service assigns it after spreading the payload),
and `isDelivered` is false whenever the payload does not supply an
`isDelivered` value (the schema default) - but a payload-supplied value
passes through, which is what the counterexample exhibits; on success
exactly one stats event is dispatched, carrying increment-letters and
update-streak. -/
theorem create_letter_owner_flag_and_stats
    (oracle : StatsOracle) (now : Int) (freshId : Nat) (store : Store)
    (userId : Nat) (p : LetterPayload) (s1 : Store)
    (evs : List (List String)) (l : Letter)
    (h : createNewLetter oracle now freshId store userId p = .ok (s1, evs, l)) :
    l.user = userId ∧
    (p.isDelivered = none → l.isDelivered = false) ∧
    evs = [letterCreatedKeys] ∧
    s1 = store ++ [l] := by
  simp only [createNewLetter, createLetterDB] at h
  split at h
  · exact absurd h (by simp)
  · next store1 heq =>
    simp only [Except.ok.injEq, Prod.mk.injEq] at h
    obtain ⟨hs, hevs, hl⟩ := h
    subst hl hs hevs
    split at heq
    · simp only [Except.ok.injEq] at heq
      subst heq
      exact ⟨rfl, fun hnone => by simp [prepareLetterData, hnone], rfl, rfl⟩
    · exact absurd heq (by simp)

/-- Witness for `create_letter_owner_flag_and_stats`: the plain demo
payload (no `isDelivered` supplied) creates successfully and the
theorem yields the amended facts at this input. -/
theorem create_letter_owner_flag_and_stats_witness :
    createNewLetter oracleOk 0 7 [] 1
      { content := some "Hello future self", deliveryInterval := some "1week",
        deliveredAt := some (2 * DAY_MS) } =
      .ok ([{ id := 7, user := 1, content := "Hello future self",
              deliveryInterval := "1week", deliveredAt := some (2 * DAY_MS) }],
           [letterCreatedKeys],
           { id := 7, user := 1, content := "Hello future self",
             deliveryInterval := "1week", deliveredAt := some (2 * DAY_MS) }) ∧
    ({ id := 7, user := 1, content := "Hello future self",
       deliveryInterval := "1week",
       deliveredAt := some (2 * DAY_MS) } : Letter).user = 1 ∧
    ({ id := 7, user := 1, content := "Hello future self",
       deliveryInterval := "1week",
       deliveredAt := some (2 * DAY_MS) } : Letter).isDelivered = false := by
  have h : createNewLetter oracleOk 0 7 [] 1
      { content := some "Hello future self", deliveryInterval := some "1week",
        deliveredAt := some (2 * DAY_MS) } =
      .ok ([{ id := 7, user := 1, content := "Hello future self",
              deliveryInterval := "1week", deliveredAt := some (2 * DAY_MS) }],
           [letterCreatedKeys],
           { id := 7, user := 1, content := "Hello future self",
             deliveryInterval := "1week", deliveredAt := some (2 * DAY_MS) }) := by decide
  have hfacts := create_letter_owner_flag_and_stats oracleOk 0 7 [] 1 _ _ _ _ h
  exact ⟨h, hfacts.1, hfacts.2.1 rfl⟩

/-! ## C7 amended -/

/-- Claim C7 as amended: create never consults the temporal policy.
`deliveredAt` is taken verbatim from the payload (`new Date(deliveredAt)`),
so when the payload carries only a symbolic interval and no concrete
`deliveredAt` the cast produces an invalid date and creation fails
validation - whatever the interval - and whenever creation succeeds the
persisted `deliveredAt` is exactly the payload value, never
now-plus-interval. -/
theorem create_uses_payload_delivered_at
    (oracle : StatsOracle) (now : Int) (freshId : Nat) (store : Store)
    (userId : Nat) (p : LetterPayload) :
    (p.deliveredAt = none →
      createNewLetter oracle now freshId store userId p =
        .error (.validation "Letter validation failed")) ∧
    (∀ s1 evs l, createNewLetter oracle now freshId store userId p = .ok (s1, evs, l) →
      l.deliveredAt = p.deliveredAt) := by
  constructor
  · intro hnone
    simp only [createNewLetter, createLetterDB]
    have hval : createValidB now (prepareLetterData userId freshId p) = false := by
      unfold createValidB deliveredAtValidator
      simp [prepareLetterData, hnone]
    simp [hval]
  · intro s1 evs l h
    simp only [createNewLetter, createLetterDB] at h
    split at h
    · exact absurd h (by simp)
    · simp only [Except.ok.injEq, Prod.mk.injEq] at h
      obtain ⟨-, -, hl⟩ := h
      subst hl
      rfl

/-- Witness for `create_uses_payload_delivered_at`: at the
interval-only payload the first part applies (creation fails), and at
the dated demo payload the second part applies (the stored date is the
payload date, 2 days, not now + 7 days). -/
theorem create_uses_payload_delivered_at_witness :
    intervalOnlyPayload.deliveredAt = none ∧
    createNewLetter oracleOk 0 7 [] 1 intervalOnlyPayload =
      .error (.validation "Letter validation failed") ∧
    ({ id := 7, user := 1, content := "Hello future self",
       deliveryInterval := "1week",
       deliveredAt := some (2 * DAY_MS) } : Letter).deliveredAt =
      ({ content := some "Hello future self", deliveryInterval := some "1week",
         deliveredAt := some (2 * DAY_MS) } : LetterPayload).deliveredAt := by
  refine ⟨rfl, (create_uses_payload_delivered_at oracleOk 0 7 [] 1 intervalOnlyPayload).1 rfl, ?_⟩
  have h : createNewLetter oracleOk 0 7 [] 1
      { content := some "Hello future self", deliveryInterval := some "1week",
        deliveredAt := some (2 * DAY_MS) } =
      .ok ([{ id := 7, user := 1, content := "Hello future self",
              deliveryInterval := "1week", deliveredAt := some (2 * DAY_MS) }],
           [letterCreatedKeys],
           { id := 7, user := 1, content := "Hello future self",
             deliveryInterval := "1week", deliveredAt := some (2 * DAY_MS) }) := by decide
  exact (create_uses_payload_delivered_at oracleOk 0 7 [] 1
      { content := some "Hello future self", deliveryInterval := some "1week",
        deliveredAt := some (2 * DAY_MS) }).2 _ _ _ h

/-! ## Store lemmas -/

/-- A found letter carries the id it was looked up by. -/
theorem findById_some_id {store : Store} {j : Nat} {x : Letter}
    (h : findById store j = some x) : x.id = j := by
  have := List.find?_some h
  simpa using this

/-- Lookup after a write-back: the found letter is the original one,
replaced when its id matches the written document. -/
theorem findById_replaceById (store : Store) (lx : Letter) (j : Nat) :
    findById (replaceById store lx) j =
      (findById store j).map (fun x => if x.id == lx.id then lx else x) := by
  unfold findById replaceById
  rw [List.find?_map]
  have hpred : ((fun l : Letter => l.id == j) ∘ fun x => if x.id == lx.id then lx else x) =
      fun x : Letter => x.id == j := by
    funext x
    by_cases hc : x.id = lx.id
    · simp [hc]
    · simp [hc]
  rw [hpred]

/-- Lookup after a delete: removed entirely for the deleted id,
untouched for every other id. -/
theorem findById_deleteById (store : Store) (i j : Nat) :
    findById (deleteById store i) j = if i = j then none else findById store j := by
  unfold findById deleteById
  rw [List.find?_filter]
  by_cases hij : i = j
  · subst hij
    rw [if_pos rfl, List.find?_eq_none]
    intro a _
    simp
  · rw [if_neg hij]
    have hpred : (fun a : Letter => decide ((a.id != i) = true ∧ (a.id == j) = true)) =
        fun a : Letter => a.id == j := by
      funext a
      by_cases haj : a.id = j
      · have hai : a.id ≠ i := fun hh => hij (by rw [← hh, haj])
        simp [haj, hai]
        exact fun hh => hij hh.symm
      · simp [haj]
    rw [hpred]

/-- Appending new documents does not disturb an existing lookup. -/
theorem findById_append_left {store : Store} {j : Nat} {x : Letter}
    (h : findById store j = some x) (ys : List Letter) :
    findById (store ++ ys) j = some x := by
  unfold findById at *
  rw [List.find?_append, h]
  rfl

/-! ## Success shapes of the operations (helper lemmas) -/

/-- A successful view leaves the store unchanged or writes back the
found letter with the delivery flag set. -/
theorem view_ok_shape (now : Int) (store : Store) (u lid : Nat)
    (p : Store × Letter) (h : getLetterById now store u lid = .ok p) :
    p.1 = store ∨ ∃ m, findById store lid = some m ∧
      p.1 = replaceById store { m with isDelivered := true } := by
  cases hf : findById store lid with
  | none => simp [getLetterById, findLetterOrFail, hf] at h
  | some m =>
    by_cases hu : (m.user == u) = true
    · by_cases hdue : (dueB now m && !m.isDelivered) = true
      · by_cases hv : saveValidB { m with isDelivered := true } = true
        · have hval : getLetterById now store u lid =
              .ok (replaceById store { m with isDelivered := true },
                   { m with isDelivered := true }) := by
            simp [getLetterById, findLetterOrFail, verifyUserOwnsLetter,
              updateDeliveryStatusIfDue, saveLetter, hf, hu, hdue, hv]
          rw [hval] at h
          have hp := Except.ok.inj h
          subst hp
          exact Or.inr ⟨m, rfl, rfl⟩
        · simp [getLetterById, findLetterOrFail, verifyUserOwnsLetter,
            updateDeliveryStatusIfDue, saveLetter, hf, hu, hdue, hv] at h
      · have hval : getLetterById now store u lid = .ok (store, m) := by
          simp [getLetterById, findLetterOrFail, verifyUserOwnsLetter,
            updateDeliveryStatusIfDue, hf, hu, hdue]
        rw [hval] at h
        have hp := Except.ok.inj h
        subst hp
        exact Or.inl rfl
    · simp [getLetterById, findLetterOrFail, verifyUserOwnsLetter, hf, hu] at h

/-- A successful create appends exactly the prepared letter. -/
theorem create_ok_shape (oracle : StatsOracle) (now : Int) (fid : Nat)
    (store : Store) (u : Nat) (pay : LetterPayload)
    (r : Store × List (List String) × Letter)
    (h : createNewLetter oracle now fid store u pay = .ok r) :
    r.1 = store ++ [prepareLetterData u fid pay] := by
  by_cases hc : createValidB now (prepareLetterData u fid pay) = true
  · have hval : createNewLetter oracle now fid store u pay =
        .ok (store ++ [prepareLetterData u fid pay], [letterCreatedKeys],
             prepareLetterData u fid pay) := by
      simp [createNewLetter, createLetterDB, hc]
    rw [hval] at h
    have hp := Except.ok.inj h
    subst hp
    rfl
  · simp [createNewLetter, createLetterDB, hc] at h

/-- A successful reschedule writes back the found letter with only the
delivery date patched. -/
theorem reschedule_ok_shape (now : Int) (store : Store) (u lid : Nat) (d : Int)
    (p : Store × Letter) (h : updateLetterDeliveryDate now store u lid d = .ok p) :
    ∃ m, findById store lid = some m ∧
      p.1 = replaceById store { m with deliveredAt := some d } := by
  cases hf : findById store lid with
  | none => simp [updateLetterDeliveryDate, findLetterOrFail, hf] at h
  | some m =>
    by_cases hu : (m.user == u) = true
    · by_cases hdel : m.isDelivered = true
      · simp [updateLetterDeliveryDate, findLetterOrFail, verifyUserOwnsLetter,
          ensureLetterIsNotDelivered, hf, hu, hdel] at h
      · have hval : updateLetterDeliveryDate now store u lid d =
            .ok (replaceById store { m with deliveredAt := some d },
                 { m with deliveredAt := some d }) := by
          simp [updateLetterDeliveryDate, findLetterOrFail, verifyUserOwnsLetter,
            ensureLetterIsNotDelivered, hf, hu, hdel]
        rw [hval] at h
        have hp := Except.ok.inj h
        subst hp
        exact ⟨m, rfl, rfl⟩
    · simp [updateLetterDeliveryDate, findLetterOrFail, verifyUserOwnsLetter,
        hf, hu] at h

/-- A successful delete removes exactly the target id. -/
theorem destroy_ok_shape (store : Store) (u lid : Nat)
    (p : Store × String) (h : deleteLetter store u lid = .ok p) :
    p.1 = deleteById store lid := by
  cases hf : findById store lid with
  | none => simp [deleteLetter, findLetterOrFail, hf] at h
  | some m =>
    by_cases hu : (m.user == u) = true
    · have hval : deleteLetter store u lid =
          .ok (deleteById store lid, "Letter deleted successfully") := by
        simp [deleteLetter, findLetterOrFail, verifyUserOwnsLetter, hf, hu]
      rw [hval] at h
      have hp := Except.ok.inj h
      subst hp
      rfl
    · simp [deleteLetter, findLetterOrFail, verifyUserOwnsLetter, hf, hu] at h

/-- A successful reflection append writes back the found letter with one
reflection appended and the version key incremented (push save). -/
theorem add_reflection_ok_shape (oracle : StatsOracle) (now : Int) (fid : Nat)
    (store : Store) (u lid : Nat) (input : ReflectionInput)
    (r : Store × List (List String) × Letter)
    (h : addReflectionToLetter oracle now fid store u lid input = .ok r) :
    ∃ m, findById store lid = some m ∧
      r.1 = replaceById store
        { m with
          version := m.version + 1,
          reflections := m.reflections ++
            [{ id := fid, reflection := input.reflection, date := input.date.getD now }] } := by
  cases hf : findById store lid with
  | none => simp [addReflectionToLetter, findLetterOrFail, hf] at h
  | some m =>
    by_cases hu : (m.user == u) = true
    · by_cases hnd : (!m.isDelivered) = true
      · simp [addReflectionToLetter, findLetterOrFail, verifyUserOwnsLetter,
          ensureLetterIsDelivered, hf, hu, hnd] at h
      · by_cases hv : saveValidB
            { m with reflections := m.reflections ++
                [{ id := fid, reflection := input.reflection, date := input.date.getD now }] } = true
        · have hval : addReflectionToLetter oracle now fid store u lid input =
              .ok (replaceById store
                     { m with
                       version := m.version + 1,
                       reflections := m.reflections ++
                         [{ id := fid, reflection := input.reflection, date := input.date.getD now }] },
                   [reflectionAddedKeys],
                   { m with
                     version := m.version + 1,
                     reflections := m.reflections ++
                       [{ id := fid, reflection := input.reflection, date := input.date.getD now }] }) := by
            simp [addReflectionToLetter, findLetterOrFail, verifyUserOwnsLetter,
              ensureLetterIsDelivered, saveLetter, hf, hu, hnd, hv]
          rw [hval] at h
          have hp := Except.ok.inj h
          subst hp
          exact ⟨m, rfl, rfl⟩
        · simp [addReflectionToLetter, findLetterOrFail, verifyUserOwnsLetter,
            ensureLetterIsDelivered, saveLetter, hf, hu, hnd, hv] at h
    · simp [addReflectionToLetter, findLetterOrFail, verifyUserOwnsLetter, hf, hu] at h

/-- A successful reflection removal writes back the found letter with
the target reflection filtered out and the version key incremented
(pull save; its version filter matches trivially, the document was
loaded and saved within the one operation). -/
theorem remove_reflection_ok_shape (store : Store) (u lid rid : Nat)
    (p : Store × Letter) (h : removeReflectionFromLetter store u lid rid = .ok p) :
    ∃ m, findById store lid = some m ∧
      p.1 = replaceById store
        { m with
          version := m.version + 1,
          reflections := m.reflections.filter (fun x => x.id != rid) } := by
  cases hf : findById store lid with
  | none => simp [removeReflectionFromLetter, findLetterOrFail, hf] at h
  | some m =>
    have hfid : findById store m.id = some m := by
      rw [findById_some_id hf]
      exact hf
    by_cases hu : (m.user == u) = true
    · by_cases hv : saveValidB
          { m with reflections := m.reflections.filter (fun x => x.id != rid) } = true
      · have hval : removeReflectionFromLetter store u lid rid =
            .ok (replaceById store
                   { m with
                     version := m.version + 1,
                     reflections := m.reflections.filter (fun x => x.id != rid) },
                 { m with
                   version := m.version + 1,
                   reflections := m.reflections.filter (fun x => x.id != rid) }) := by
          simp [removeReflectionFromLetter, findLetterOrFail, verifyUserOwnsLetter,
            saveLetter, hf, hfid, hu, hv]
        rw [hval] at h
        have hp := Except.ok.inj h
        subst hp
        exact ⟨m, rfl, rfl⟩
      · simp [removeReflectionFromLetter, findLetterOrFail, verifyUserOwnsLetter,
          saveLetter, hf, hfid, hu, hv] at h
    · simp [removeReflectionFromLetter, findLetterOrFail, verifyUserOwnsLetter,
        hf, hu] at h

/-- A successful goal-status update writes back the found letter with
only the target goal mutated (positional save: version filter matches
trivially within the one operation, no increment). -/
theorem set_goal_status_ok_shape (now : Int) (store : Store) (u lid gid : Nat)
    (sd : StatusData) (r : Store × List (List String) × Letter)
    (h : updateGoalStatus now store u lid gid sd = .ok r) :
    ∃ m, findById store lid = some m ∧
      r.1 = replaceById store
        { m with goals := m.goals.map (fun g => if g.id == gid then applyStatusData sd g else g) } := by
  cases hf : findById store lid with
  | none => simp [updateGoalStatus, findLetterOrFail, hf] at h
  | some m =>
    have hfid : findById store m.id = some m := by
      rw [findById_some_id hf]
      exact hf
    by_cases hu : (m.user == u) = true
    · by_cases hnd : (!m.isDelivered) = true
      · simp [updateGoalStatus, findLetterOrFail, verifyUserOwnsLetter,
          ensureLetterIsDelivered, hf, hu, hnd] at h
      · cases hg : m.goals.find? (fun g => g.id == gid) with
        | none =>
          simp [updateGoalStatus, findLetterOrFail, verifyUserOwnsLetter,
            ensureLetterIsDelivered, hf, hu, hnd, hg] at h
        | some g =>
          by_cases hv : saveValidB
              { m with goals := m.goals.map (fun g => if g.id == gid then applyStatusData sd g else g) } = true
          · by_cases hacc : (sd.status == "accomplished") = true
            · simp [updateGoalStatus, findLetterOrFail, verifyUserOwnsLetter,
                ensureLetterIsDelivered, saveLetter, hf, hfid, hu, hnd, hg, hv, hacc,
                -beq_iff_eq] at h
            · have hval : updateGoalStatus now store u lid gid sd =
                  .ok (replaceById store
                         { m with goals := m.goals.map (fun g => if g.id == gid then applyStatusData sd g else g) },
                       [],
                       { m with goals := m.goals.map (fun g => if g.id == gid then applyStatusData sd g else g) }) := by
                simp [updateGoalStatus, findLetterOrFail, verifyUserOwnsLetter,
                  ensureLetterIsDelivered, saveLetter, hf, hfid, hu, hnd, hg, hv, hacc,
                  -beq_iff_eq]
              rw [hval] at h
              have hp := Except.ok.inj h
              subst hp
              exact ⟨m, rfl, rfl⟩
          · simp [updateGoalStatus, findLetterOrFail, verifyUserOwnsLetter,
              ensureLetterIsDelivered, saveLetter, hf, hfid, hu, hnd, hg, hv,
              -beq_iff_eq] at h
    · simp [updateGoalStatus, findLetterOrFail, verifyUserOwnsLetter, hf, hu] at h

/-- A successful goal-reflection write writes back the found letter with
only the target goal mutated (positional save: version filter matches
trivially within the one operation, no increment). -/
theorem set_goal_reflection_ok_shape (store : Store) (u lid gid : Nat)
    (refl : Option String) (p : Store × Letter)
    (h : addGoalReflection store u lid gid refl = .ok p) :
    ∃ m, findById store lid = some m ∧
      p.1 = replaceById store
        { m with goals := m.goals.map (fun g =>
            if g.id == gid then { g with reflection := refl } else g) } := by
  cases hf : findById store lid with
  | none => simp [addGoalReflection, findLetterOrFail, hf] at h
  | some m =>
    have hfid : findById store m.id = some m := by
      rw [findById_some_id hf]
      exact hf
    by_cases hu : (m.user == u) = true
    · by_cases hnd : (!m.isDelivered) = true
      · simp [addGoalReflection, findLetterOrFail, verifyUserOwnsLetter,
          ensureLetterIsDelivered, hf, hu, hnd] at h
      · cases hg : m.goals.find? (fun g => g.id == gid) with
        | none =>
          simp [addGoalReflection, findLetterOrFail, verifyUserOwnsLetter,
            ensureLetterIsDelivered, hf, hu, hnd, hg] at h
        | some g =>
          by_cases hv : saveValidB
              { m with goals := m.goals.map (fun g =>
                  if g.id == gid then { g with reflection := refl } else g) } = true
          · have hval : addGoalReflection store u lid gid refl =
                .ok (replaceById store
                       { m with goals := m.goals.map (fun g =>
                           if g.id == gid then { g with reflection := refl } else g) },
                     { m with goals := m.goals.map (fun g =>
                         if g.id == gid then { g with reflection := refl } else g) }) := by
              simp [addGoalReflection, findLetterOrFail, verifyUserOwnsLetter,
                ensureLetterIsDelivered, saveLetter, hf, hfid, hu, hnd, hg, hv, -beq_iff_eq]
            rw [hval] at h
            have hp := Except.ok.inj h
            subst hp
            exact ⟨m, rfl, rfl⟩
          · simp [addGoalReflection, findLetterOrFail, verifyUserOwnsLetter,
              ensureLetterIsDelivered, saveLetter, hf, hfid, hu, hnd, hg, hv, -beq_iff_eq] at h
    · simp [addGoalReflection, findLetterOrFail, verifyUserOwnsLetter, hf, hu] at h

/-- A successful carry-forward writes back the target letter (one pushed
goal, version incremented) and then the source letter (goal flipped);
the second save passed its version filter, which forces distinct
documents. -/
theorem carry_ok_shape (now : Int) (fid : Nat) (store : Store)
    (u oldLid gid newLid : Nat) (r : Store × Letter × Letter)
    (h : carryGoalForward now fid store u oldLid gid newLid = .ok r) :
    ∃ mo mn g, findById store oldLid = some mo ∧ findById store newLid = some mn ∧
      r.1 = replaceById
        (replaceById store
          { mn with version := mn.version + 1, goals := mn.goals ++ [carriedGoalPush fid g] })
        { mo with goals := mo.goals.map (fun x =>
            if x.id == gid then
              { g with status := "carriedForward",
                       carriedForwardTo := some newLid,
                       statusUpdatedAt := some now }
            else x) } := by
  cases hfo : findById store oldLid with
  | none => simp [carryGoalForward, findLetterOrFail, hfo] at h
  | some mo =>
    by_cases huo : (mo.user == u) = true
    · cases hfn : findById store newLid with
      | none => simp [carryGoalForward, findLetterOrFail, hfo, hfn,
          verifyUserOwnsLetter, huo] at h
      | some mn =>
        by_cases hun : (mn.user == u) = true
        · cases hg : mo.goals.find? (fun g => g.id == gid) with
          | none =>
            simp [carryGoalForward, findLetterOrFail, verifyUserOwnsLetter,
              hfo, hfn, huo, hun, hg] at h
          | some g =>
            by_cases hv1 : saveValidB
                { mn with goals := mn.goals ++ [carriedGoalPush fid g] } = true
            · by_cases hv2 : saveValidB
                  { mo with goals := mo.goals.map (fun x =>
                      if x.id == gid then
                        { g with status := "carriedForward",
                                 carriedForwardTo := some newLid,
                                 statusUpdatedAt := some now }
                      else x) } = true
              · have hfo2 : findById store mo.id = some mo := by
                  rw [findById_some_id hfo]
                  exact hfo
                have hchk : findById
                    (replaceById store
                      { mn with
                        version := mn.version + 1,
                        goals := mn.goals ++ [carriedGoalPush fid g] })
                    mo.id =
                    some (if (mo.id == mn.id) = true then
                            { mn with
                              version := mn.version + 1,
                              goals := mn.goals ++ [carriedGoalPush fid g] }
                          else mo) := by
                  rw [findById_replaceById, hfo2]
                  rfl
                by_cases hsame : (mo.id == mn.id) = true
                · have hmo_eq : mo = mn := by
                    have hid_eq : oldLid = newLid := by
                      rw [← findById_some_id hfo, ← findById_some_id hfn]
                      exact beq_iff_eq.mp hsame
                    have h1 : findById store newLid = some mo := hid_eq ▸ hfo
                    rw [hfn] at h1
                    exact (Option.some.inj h1).symm
                  have hver : (mn.version + 1 == mo.version) = false := by
                    rw [hmo_eq]
                    simp
                  simp [carryGoalForward, findLetterOrFail, verifyUserOwnsLetter,
                    saveLetter, hfo, hfn, huo, hun, hg, hv1, hv2, hchk, hsame, hver,
                    -beq_iff_eq] at h
                · have hver : (mo.version == mo.version) = true := by simp
                  have hval : carryGoalForward now fid store u oldLid gid newLid =
                      .ok (replaceById
                             (replaceById store
                               { mn with
                                 version := mn.version + 1,
                                 goals := mn.goals ++ [carriedGoalPush fid g] })
                             { mo with goals := mo.goals.map (fun x =>
                                 if x.id == gid then
                                   { g with status := "carriedForward",
                                            carriedForwardTo := some newLid,
                                            statusUpdatedAt := some now }
                                 else x) },
                           { mo with goals := mo.goals.map (fun x =>
                               if x.id == gid then
                                 { g with status := "carriedForward",
                                          carriedForwardTo := some newLid,
                                          statusUpdatedAt := some now }
                               else x) },
                           { mn with
                             version := mn.version + 1,
                             goals := mn.goals ++ [carriedGoalPush fid g] }) := by
                    simp [carryGoalForward, findLetterOrFail, verifyUserOwnsLetter,
                      saveLetter, hfo, hfn, huo, hun, hg, hv1, hv2, hchk, hsame, hver,
                      -beq_iff_eq]
                  rw [hval] at h
                  have hp := Except.ok.inj h
                  subst hp
                  exact ⟨mo, mn, g, rfl, rfl, rfl⟩
              · simp [carryGoalForward, findLetterOrFail, verifyUserOwnsLetter,
                  saveLetter, hfo, hfn, huo, hun, hg, hv1, hv2, -beq_iff_eq] at h
            · simp [carryGoalForward, findLetterOrFail, verifyUserOwnsLetter,
                saveLetter, hfo, hfn, huo, hun, hg, hv1, -beq_iff_eq] at h
        · simp [carryGoalForward, findLetterOrFail, verifyUserOwnsLetter,
            hfo, hfn, huo, hun] at h
    · simp [carryGoalForward, findLetterOrFail, verifyUserOwnsLetter, hfo, huo] at h

/-! ## Preservation of the delivery flag -/

/-- Every letter stored with `isDelivered = true` still has it after the
transition: the formal reading of "no operation ever sets the flag back
to false". -/
def DeliveredPreserved (store store' : Store) : Prop :=
  ∀ id l l', findById store id = some l → l.isDelivered = true →
    findById store' id = some l' → l'.isDelivered = true

theorem dp_refl (store : Store) : DeliveredPreserved store store := by
  intro id l l' hl hld hl'
  rw [hl] at hl'
  cases Option.some.inj hl'
  exact hld

theorem dp_replace (store : Store) (lid : Nat) (m lx : Letter)
    (hm : findById store lid = some m) (hid : lx.id = m.id)
    (hflag : m.isDelivered = true → lx.isDelivered = true) :
    DeliveredPreserved store (replaceById store lx) := by
  intro id l l' hl hld hl'
  rw [findById_replaceById, hl] at hl'
  have hinj := Option.some.inj hl'
  simp only [] at hinj
  by_cases hc : (l.id == lx.id) = true
  · rw [if_pos hc] at hinj
    subst hinj
    have hcl : l.id = lx.id := beq_iff_eq.mp hc
    have hlid : l.id = id := findById_some_id hl
    have hmid : m.id = lid := findById_some_id hm
    have hlidid : lid = id := by rw [← hmid, ← hid, ← hcl, hlid]
    have hm2 : findById store id = some m := hlidid ▸ hm
    rw [hl] at hm2
    have hml := Option.some.inj hm2
    exact hflag (hml ▸ hld)
  · rw [if_neg hc] at hinj
    subst hinj
    exact hld

theorem dp_append (store : Store) (ys : List Letter) :
    DeliveredPreserved store (store ++ ys) := by
  intro id l l' hl hld hl'
  rw [findById_append_left hl ys] at hl'
  cases Option.some.inj hl'
  exact hld

theorem dp_delete (store : Store) (i : Nat) :
    DeliveredPreserved store (deleteById store i) := by
  intro id l l' hl hld hl'
  rw [findById_deleteById] at hl'
  by_cases hij : i = id
  · simp [hij] at hl'
  · rw [if_neg hij, hl] at hl'
    cases Option.some.inj hl'
    exact hld

theorem dp_comp (store store1 store2 : Store)
    (d1 : DeliveredPreserved store store1)
    (d2 : DeliveredPreserved store1 store2)
    (htot : ∀ id l, findById store id = some l → ∃ l1, findById store1 id = some l1) :
    DeliveredPreserved store store2 := by
  intro id l l' hl hld hl'
  obtain ⟨l1, hl1⟩ := htot id l hl
  exact d2 id l1 l' hl1 (d1 id l l1 hl hld hl1) hl'

/-! ## C6 amended -/

/-- Claim C6 as amended: the delivery flag is one-way and lazily set,
with a STRICT trigger.  (1) View flips and persists the flag exactly
when `now > deliveredAt` (not ≥) and the letter is not yet delivered;
otherwise it writes nothing.  (2) After a flip, a second view at any
later instant returns the same store: the flip happens at most once.
(3) No lifecycle operation ever takes a stored letter from
`isDelivered = true` back to false. -/
theorem delivery_flag_lazy_strict_oneway :
    (∀ (now : Int) (store : Store) (u : Nat) (l : Letter),
        findById store l.id = some l → l.user = u → saveValidB l = true →
        getLetterById now store u l.id =
          if dueB now l && !l.isDelivered then
            .ok (replaceById store { l with isDelivered := true },
                 { l with isDelivered := true })
          else .ok (store, l)) ∧
    (∀ (now now2 : Int) (store : Store) (u : Nat) (l : Letter),
        findById store l.id = some l → l.user = u → saveValidB l = true →
        (dueB now l && !l.isDelivered) = true →
        getLetterById now2 (replaceById store { l with isDelivered := true }) u l.id =
          .ok (replaceById store { l with isDelivered := true },
               { l with isDelivered := true })) ∧
    (∀ (oracle : StatsOracle) (now : Int) (store : Store) (op : Op) (store' : Store),
        runOp oracle now store op = .ok store' → DeliveredPreserved store store') := by
  have partA : ∀ (now : Int) (store : Store) (u : Nat) (l : Letter),
      findById store l.id = some l → l.user = u → saveValidB l = true →
      getLetterById now store u l.id =
        if dueB now l && !l.isDelivered then
          .ok (replaceById store { l with isDelivered := true },
               { l with isDelivered := true })
        else .ok (store, l) := by
    intro now store u l hf hu hv
    have hu' : (l.user == u) = true := beq_iff_eq.mpr hu
    have hv' : saveValidB { l with isDelivered := true } = true := hv
    by_cases hdue : (dueB now l && !l.isDelivered) = true
    · rw [if_pos hdue]
      simp [getLetterById, findLetterOrFail, hf, verifyUserOwnsLetter, hu',
        updateDeliveryStatusIfDue, saveLetter, hdue, hv']
    · rw [if_neg hdue]
      simp [getLetterById, findLetterOrFail, hf, verifyUserOwnsLetter, hu',
        updateDeliveryStatusIfDue, hdue]
  refine ⟨partA, ?_, ?_⟩
  · intro now now2 store u l hf hu hv _hdue
    have hf' : findById (replaceById store { l with isDelivered := true })
        ({ l with isDelivered := true } : Letter).id =
        some { l with isDelivered := true } := by
      have := findById_replaceById store { l with isDelivered := true } l.id
      rw [hf] at this
      simp only [Option.map_some'] at this
      simpa using this
    have happ := partA now2 (replaceById store { l with isDelivered := true }) u
      { l with isDelivered := true } hf' hu hv
    have hcond : (dueB now2 { l with isDelivered := true } &&
        !({ l with isDelivered := true } : Letter).isDelivered) = false := by
      simp
    rw [happ, hcond]
    simp
  · intro oracle now store op store' h
    cases op with
    | view u lid =>
      cases hres : getLetterById now store u lid with
      | error e => simp [runOp, hres] at h
      | ok p =>
        simp only [runOp, hres, Except.ok.injEq] at h
        subst h
        rcases view_ok_shape now store u lid p hres with hsame | ⟨m, hm, hrep⟩
        · rw [hsame]; exact dp_refl store
        · rw [hrep]
          exact dp_replace store lid m _ hm rfl (fun _ => rfl)
    | create u fid pay =>
      cases hres : createNewLetter oracle now fid store u pay with
      | error e => simp [runOp, hres] at h
      | ok r =>
        simp only [runOp, hres, Except.ok.injEq] at h
        subst h
        rw [create_ok_shape oracle now fid store u pay r hres]
        exact dp_append store _
    | reschedule u lid d =>
      cases hres : updateLetterDeliveryDate now store u lid d with
      | error e => simp [runOp, hres] at h
      | ok p =>
        simp only [runOp, hres, Except.ok.injEq] at h
        subst h
        obtain ⟨m, hm, hrep⟩ := reschedule_ok_shape now store u lid d p hres
        rw [hrep]
        exact dp_replace store lid m _ hm rfl (fun hh => hh)
    | destroy u lid =>
      cases hres : deleteLetter store u lid with
      | error e => simp [runOp, hres] at h
      | ok p =>
        simp only [runOp, hres, Except.ok.injEq] at h
        subst h
        rw [destroy_ok_shape store u lid p hres]
        exact dp_delete store lid
    | addReflection u lid fid input =>
      cases hres : addReflectionToLetter oracle now fid store u lid input with
      | error e => simp [runOp, hres] at h
      | ok r =>
        simp only [runOp, hres, Except.ok.injEq] at h
        subst h
        obtain ⟨m, hm, hrep⟩ := add_reflection_ok_shape oracle now fid store u lid input r hres
        rw [hrep]
        exact dp_replace store lid m _ hm rfl (fun hh => hh)
    | removeReflection u lid rid =>
      cases hres : removeReflectionFromLetter store u lid rid with
      | error e => simp [runOp, hres] at h
      | ok p =>
        simp only [runOp, hres, Except.ok.injEq] at h
        subst h
        obtain ⟨m, hm, hrep⟩ := remove_reflection_ok_shape store u lid rid p hres
        rw [hrep]
        exact dp_replace store lid m _ hm rfl (fun hh => hh)
    | setGoalStatus u lid gid sd =>
      cases hres : updateGoalStatus now store u lid gid sd with
      | error e => simp [runOp, hres] at h
      | ok r =>
        simp only [runOp, hres, Except.ok.injEq] at h
        subst h
        obtain ⟨m, hm, hrep⟩ := set_goal_status_ok_shape now store u lid gid sd r hres
        rw [hrep]
        exact dp_replace store lid m _ hm rfl (fun hh => hh)
    | carryForward u oldLid gid newLid fid =>
      cases hres : carryGoalForward now fid store u oldLid gid newLid with
      | error e => simp [runOp, hres] at h
      | ok r =>
        simp only [runOp, hres, Except.ok.injEq] at h
        subst h
        obtain ⟨mo, mn, g, hmo, hmn, hrep⟩ := carry_ok_shape now fid store u oldLid gid newLid r hres
        rw [hrep]
        have d1 : DeliveredPreserved store
            (replaceById store { mn with version := mn.version + 1, goals := mn.goals ++ [carriedGoalPush fid g] }) :=
          dp_replace store newLid mn _ hmn rfl (fun hh => hh)
        have d2 : DeliveredPreserved
            (replaceById store { mn with version := mn.version + 1, goals := mn.goals ++ [carriedGoalPush fid g] })
            (replaceById
              (replaceById store { mn with version := mn.version + 1, goals := mn.goals ++ [carriedGoalPush fid g] })
              { mo with goals := mo.goals.map (fun x =>
                  if x.id == gid then
                    { g with status := "carriedForward",
                             carriedForwardTo := some newLid,
                             statusUpdatedAt := some now }
                  else x) }) := by
          have hm2 : findById
              (replaceById store { mn with version := mn.version + 1, goals := mn.goals ++ [carriedGoalPush fid g] })
              oldLid =
              some (if mo.id == ({ mn with version := mn.version + 1, goals := mn.goals ++ [carriedGoalPush fid g] } : Letter).id
                    then { mn with version := mn.version + 1, goals := mn.goals ++ [carriedGoalPush fid g] }
                    else mo) := by
            rw [findById_replaceById, hmo]
            rfl
          apply dp_replace _ oldLid _ _ hm2
          · by_cases hc : (mo.id == ({ mn with version := mn.version + 1, goals := mn.goals ++ [carriedGoalPush fid g] } : Letter).id) = true
            · rw [if_pos hc]
              exact beq_iff_eq.mp hc
            · rw [if_neg hc]
          · by_cases hc : (mo.id == ({ mn with version := mn.version + 1, goals := mn.goals ++ [carriedGoalPush fid g] } : Letter).id) = true
            · rw [if_pos hc]
              intro hh
              have hh2 : mn.isDelivered = true := hh
              have hcid : mo.id = mn.id := beq_iff_eq.mp hc
              have ho : mo.id = oldLid := findById_some_id hmo
              have hn : mn.id = newLid := findById_some_id hmn
              have hll : oldLid = newLid := by rw [← ho, hcid, hn]
              have hmo2 : findById store newLid = some mo := hll ▸ hmo
              rw [hmn] at hmo2
              have hmneq := Option.some.inj hmo2
              show mo.isDelivered = true
              rw [← hmneq]
              exact hh2
            · rw [if_neg hc]
              exact fun hh => hh
        exact dp_comp _ _ _ d1 d2 (fun id l hl => ⟨_, by rw [findById_replaceById, hl]; rfl⟩)
    | setGoalReflection u lid gid refl =>
      cases hres : addGoalReflection store u lid gid refl with
      | error e => simp [runOp, hres] at h
      | ok p =>
        simp only [runOp, hres, Except.ok.injEq] at h
        subst h
        obtain ⟨m, hm, hrep⟩ := set_goal_reflection_ok_shape store u lid gid refl p hres
        rw [hrep]
        exact dp_replace store lid m _ hm rfl (fun hh => hh)

/-- Witness for `delivery_flag_lazy_strict_oneway`: viewing the boundary
letter at t = 2000 (strictly after its delivery instant 1000) flips the
flag; a second view at any later time writes nothing more; and a
successful reschedule of the undelivered demo letter leaves the
delivered demo letter delivered. -/
theorem delivery_flag_lazy_strict_oneway_witness :
    (getLetterById 2000 [boundaryLetter] 1 boundaryLetter.id =
      if dueB 2000 boundaryLetter && !boundaryLetter.isDelivered then
        .ok (replaceById [boundaryLetter] { boundaryLetter with isDelivered := true },
             { boundaryLetter with isDelivered := true })
      else .ok ([boundaryLetter], boundaryLetter)) ∧
    (getLetterById 9999 (replaceById [boundaryLetter] { boundaryLetter with isDelivered := true })
        1 boundaryLetter.id =
      .ok (replaceById [boundaryLetter] { boundaryLetter with isDelivered := true },
           { boundaryLetter with isDelivered := true })) ∧
    DeliveredPreserved [demoDeliveredLetter, demoUndeliveredLetter]
      [demoDeliveredLetter, { demoUndeliveredLetter with deliveredAt := some (60 * DAY_MS) }] := by
  refine ⟨delivery_flag_lazy_strict_oneway.1 2000 [boundaryLetter] 1 boundaryLetter
            (by decide) rfl (by decide),
          delivery_flag_lazy_strict_oneway.2.1 2000 9999 [boundaryLetter] 1 boundaryLetter
            (by decide) rfl (by decide) (by decide),
          delivery_flag_lazy_strict_oneway.2.2 oracleOk 0
            [demoDeliveredLetter, demoUndeliveredLetter]
            (.reschedule 1 3 (60 * DAY_MS))
            [demoDeliveredLetter, { demoUndeliveredLetter with deliveredAt := some (60 * DAY_MS) }]
            (by decide)⟩

/-! ## C9 -/

/-- Claim C9: whenever every letter an operation targets exists in the
store and at least one of them is not owned by the caller, the
operation fails with the Forbidden error - never NotFound: each
operation resolves a letter and immediately ownership-checks it before
any other check, so existence is established first and the failure is
always the ownership one. -/
theorem cross_user_ops_forbidden
    (oracle : StatsOracle) (now : Int) (store : Store) (op : Op)
    (hres : ∀ id ∈ op.letterTargets, (findById store id).isSome)
    (hown : ∃ id ∈ op.letterTargets, ∃ l, findById store id = some l ∧ l.user ≠ op.caller) :
    runOp oracle now store op =
      .error (.forbidden "You do not have permission to access this letter") := by
  cases op with
  | view u lid =>
    obtain ⟨id, hidmem, l, hl, hne⟩ := hown
    simp only [Op.letterTargets, List.mem_singleton] at hidmem
    subst hidmem
    simp only [Op.caller] at hne
    have hub : (l.user == u) = false := by simp [hne]
    simp [runOp, getLetterById, findLetterOrFail, hl, verifyUserOwnsLetter, hub]
  | create u fid pay =>
    obtain ⟨id, hidmem, -⟩ := hown
    simp [Op.letterTargets] at hidmem
  | reschedule u lid d =>
    obtain ⟨id, hidmem, l, hl, hne⟩ := hown
    simp only [Op.letterTargets, List.mem_singleton] at hidmem
    subst hidmem
    simp only [Op.caller] at hne
    have hub : (l.user == u) = false := by simp [hne]
    simp [runOp, updateLetterDeliveryDate, findLetterOrFail, hl, verifyUserOwnsLetter, hub]
  | destroy u lid =>
    obtain ⟨id, hidmem, l, hl, hne⟩ := hown
    simp only [Op.letterTargets, List.mem_singleton] at hidmem
    subst hidmem
    simp only [Op.caller] at hne
    have hub : (l.user == u) = false := by simp [hne]
    simp [runOp, deleteLetter, findLetterOrFail, hl, verifyUserOwnsLetter, hub]
  | addReflection u lid fid input =>
    obtain ⟨id, hidmem, l, hl, hne⟩ := hown
    simp only [Op.letterTargets, List.mem_singleton] at hidmem
    subst hidmem
    simp only [Op.caller] at hne
    have hub : (l.user == u) = false := by simp [hne]
    simp [runOp, addReflectionToLetter, findLetterOrFail, hl, verifyUserOwnsLetter, hub]
  | removeReflection u lid rid =>
    obtain ⟨id, hidmem, l, hl, hne⟩ := hown
    simp only [Op.letterTargets, List.mem_singleton] at hidmem
    subst hidmem
    simp only [Op.caller] at hne
    have hub : (l.user == u) = false := by simp [hne]
    simp [runOp, removeReflectionFromLetter, findLetterOrFail, hl, verifyUserOwnsLetter, hub]
  | setGoalStatus u lid gid sd =>
    obtain ⟨id, hidmem, l, hl, hne⟩ := hown
    simp only [Op.letterTargets, List.mem_singleton] at hidmem
    subst hidmem
    simp only [Op.caller] at hne
    have hub : (l.user == u) = false := by simp [hne]
    simp [runOp, updateGoalStatus, findLetterOrFail, hl, verifyUserOwnsLetter, hub]
  | carryForward u oldLid gid newLid fid =>
    obtain ⟨id, hidmem, l, hl, hne⟩ := hown
    simp only [Op.caller] at hne
    have ho : (findById store oldLid).isSome := hres oldLid (by simp [Op.letterTargets])
    obtain ⟨mo, hmo⟩ := Option.isSome_iff_exists.mp ho
    simp only [Op.letterTargets, List.mem_cons, List.mem_singleton,
      List.not_mem_nil, or_false] at hidmem
    rcases hidmem with h1 | h2
    · subst h1
      have hlmo : l = mo := by
        rw [hl] at hmo
        exact Option.some.inj hmo
      subst hlmo
      have hub : (l.user == u) = false := by simp [hne]
      simp [runOp, carryGoalForward, findLetterOrFail, hl, verifyUserOwnsLetter, hub]
    · subst h2
      by_cases huo : (mo.user == u) = true
      · have hub : (l.user == u) = false := by simp [hne]
        simp [runOp, carryGoalForward, findLetterOrFail, hmo, hl,
          verifyUserOwnsLetter, huo, hub]
      · have hub : (mo.user == u) = false := by
          rw [Bool.not_eq_true] at huo
          exact huo
        simp [runOp, carryGoalForward, findLetterOrFail, hmo, verifyUserOwnsLetter, hub]
  | setGoalReflection u lid gid refl =>
    obtain ⟨id, hidmem, l, hl, hne⟩ := hown
    simp only [Op.letterTargets, List.mem_singleton] at hidmem
    subst hidmem
    simp only [Op.caller] at hne
    have hub : (l.user == u) = false := by simp [hne]
    simp [runOp, addGoalReflection, findLetterOrFail, hl, verifyUserOwnsLetter, hub]

/-- Witness for `cross_user_ops_forbidden`: user 2 viewing letter 1
(which exists and belongs to user 1) is rejected with Forbidden. -/
theorem cross_user_ops_forbidden_witness :
    runOp oracleOk 0 [demoDeliveredLetter] (.view 2 1) =
      .error (.forbidden "You do not have permission to access this letter") := by
  exact cross_user_ops_forbidden oracleOk 0 [demoDeliveredLetter] (.view 2 1)
    (by decide)
    ⟨1, by decide, demoDeliveredLetter, rfl, by decide⟩

/-! ## C10 -/

/-- Extraction: a save-valid letter has all goals valid. -/
theorem saveValidB_goals_all (l : Letter) (h : saveValidB l = true) :
    l.goals.all goalValid = true := by
  unfold saveValidB letterCoreValid at h
  simp only [Bool.and_eq_true] at h
  exact h.1.1.1.2

/-- A goal found on a save-valid letter is itself valid. -/
theorem goalValid_of_letter (l : Letter) (h : saveValidB l = true)
    (g : Goal) (hg : g ∈ l.goals) : goalValid g = true := by
  have := saveValidB_goals_all l h
  rw [List.all_eq_true] at this
  exact this g hg

/-- Replacing the goal list of a save-valid letter with another list of
valid goals keeps it save-valid (no other field changes). -/
theorem saveValidB_set_goals (l : Letter) (gs : List Goal)
    (h : saveValidB l = true) (hgs : gs.all goalValid = true) :
    saveValidB { l with goals := gs } = true := by
  unfold saveValidB letterCoreValid at h ⊢
  simp only [Bool.and_eq_true] at h ⊢
  obtain ⟨⟨⟨⟨⟨⟨⟨ht, hc1⟩, hc2⟩, hm⟩, -⟩, hi⟩, hr⟩, hsome⟩ := h
  exact ⟨⟨⟨⟨⟨⟨⟨ht, hc1⟩, hc2⟩, hm⟩, hgs⟩, hi⟩, hr⟩, hsome⟩

/-- The pushed copy of a valid goal is valid: same text, enum status
`pending`, no reflection. -/
theorem goalValid_push (fid : Nat) (g : Goal) (h : goalValid g = true) :
    goalValid (carriedGoalPush fid g) = true := by
  unfold goalValid at h
  unfold goalValid carriedGoalPush
  simp only [Bool.and_eq_true] at h ⊢
  obtain ⟨⟨⟨h1, h2⟩, -⟩, -⟩ := h
  exact ⟨⟨⟨h1, h2⟩, by decide⟩, trivial⟩

/-- The carried-forward mutation of a valid goal is valid: same text and
reflection, enum status `carriedForward`. -/
theorem goalValid_carried (now : Int) (newLid : Nat) (g : Goal)
    (h : goalValid g = true) :
    goalValid { g with status := "carriedForward",
                       carriedForwardTo := some newLid,
                       statusUpdatedAt := some now } = true := by
  unfold goalValid at h ⊢
  simp only [Bool.and_eq_true] at h ⊢
  obtain ⟨⟨⟨h1, h2⟩, -⟩, h4⟩ := h
  exact ⟨⟨⟨h1, h2⟩, by decide⟩, h4⟩

/-- Definition following the words of claim C10 as stated (spec side,
for comparison): carry-forward succeeds exactly when the source letter
resolves and is owned, the target letter resolves and is owned, and the
goal id is present on the source letter - no delivery-state, goal-status
or distinctness condition. -/
def carrySpecPrecond (store : Store) (userId oldLetterId goalId newLetterId : Nat) : Bool :=
  match findById store oldLetterId with
  | none => false
  | some lo =>
    lo.user == userId &&
    (match findById store newLetterId with
     | none => false
     | some ln =>
       ln.user == userId && (lo.goals.find? (fun g => g.id == goalId)).isSome)

/-- An undelivered letter of user 1 carrying one COMPLETED goal, used
as the source of the carry-forward inputs below. -/
def demoSelfCarryLetter : Letter :=
  { demoUndeliveredLetter with
    goals := [{ id := 1, text := "Run a marathon", status := "completed" }] }

/-- A second undelivered letter of user 1 (carry-forward target). -/
def demoCarryTargetLetter : Letter :=
  { id := 4, user := 1, content := "Target for carried goals.",
    deliveryInterval := "custom", deliveredAt := some (40 * DAY_MS) }

/-- Counterexample to claim C10 as stated: carrying a goal from letter 3
onto letter 3 itself satisfies every precondition the claim lists (both
ids resolve to an owned letter, the goal exists), yet the operation
FAILS: the first save() pushes onto the goal array and increments the
stored version key, and the second save() - built from the instance
loaded before that - sets a goal field by position, so its update filter
carries the stale version, matches no document, and mongoose throws a
VersionError. -/
theorem carry_forward_same_letter_version_error_cex :
    carryGoalForward 5 9 [demoSelfCarryLetter] 1 3 1 3 =
      .error (.versionError "No matching document found") ∧
    carrySpecPrecond [demoSelfCarryLetter] 1 3 1 3 = true := by
  exact ⟨by decide, by decide⟩

/-- Definition following claim C10 as amended: the original
precondition plus the distinctness of the two letter ids, which the
version guard of the second save enforces. -/
def carrySpecPrecondAmended (store : Store) (userId oldLetterId goalId newLetterId : Nat) : Bool :=
  carrySpecPrecond store userId oldLetterId goalId newLetterId &&
  (oldLetterId != newLetterId)

/-- Claim C10 as amended: over any store whose letters pass schema
validation, `carryGoalForward` succeeds exactly when both letters
resolve and are owned, the goal is present on the source, AND the two
letter ids are distinct - the same-letter case fails with a mongoose
VersionError (the push save increments the stored version key out from
under the stale source instance).  Delivery state and the current
status of the source goal remain irrelevant. -/
theorem carry_forward_failure_characterization
    (now : Int) (fid : Nat) (store : Store) (userId oldLid gid newLid : Nat)
    (hvalid : ∀ l ∈ store, saveValidB l = true) :
    isOkB (carryGoalForward now fid store userId oldLid gid newLid) =
      carrySpecPrecondAmended store userId oldLid gid newLid := by
  cases hfo : findById store oldLid with
  | none =>
    simp [carryGoalForward, findLetterOrFail, carrySpecPrecondAmended,
      carrySpecPrecond, isOkB, hfo]
  | some mo =>
    have hmoV := hvalid mo (List.mem_of_find?_eq_some hfo)
    cases huo : (mo.user == userId) with
    | false =>
      simp [carryGoalForward, findLetterOrFail, verifyUserOwnsLetter,
        carrySpecPrecondAmended, carrySpecPrecond, isOkB, hfo, huo]
    | true =>
      cases hfn : findById store newLid with
      | none =>
        simp [carryGoalForward, findLetterOrFail, verifyUserOwnsLetter,
          carrySpecPrecondAmended, carrySpecPrecond, isOkB, hfo, hfn, huo]
      | some mn =>
        have hmnV := hvalid mn (List.mem_of_find?_eq_some hfn)
        cases hun : (mn.user == userId) with
        | false =>
          simp [carryGoalForward, findLetterOrFail, verifyUserOwnsLetter,
            carrySpecPrecondAmended, carrySpecPrecond, isOkB, hfo, hfn, huo, hun]
        | true =>
          cases hg : mo.goals.find? (fun g => g.id == gid) with
          | none =>
            simp [carryGoalForward, findLetterOrFail, verifyUserOwnsLetter,
              carrySpecPrecondAmended, carrySpecPrecond, isOkB, hfo, hfn, huo, hun, hg]
          | some g =>
            have hgv : goalValid g = true :=
              goalValid_of_letter mo hmoV g (List.mem_of_find?_eq_some hg)
            have hv1 : saveValidB
                { mn with goals := mn.goals ++ [carriedGoalPush fid g] } = true := by
              apply saveValidB_set_goals mn _ hmnV
              rw [List.all_append]
              simp only [Bool.and_eq_true]
              exact ⟨saveValidB_goals_all mn hmnV, by
                simp [List.all_cons, goalValid_push fid g hgv]⟩
            have hv2 : saveValidB
                { mo with goals := mo.goals.map (fun x =>
                    if x.id == gid then
                      { g with status := "carriedForward",
                               carriedForwardTo := some newLid,
                               statusUpdatedAt := some now }
                    else x) } = true := by
              apply saveValidB_set_goals mo _ hmoV
              rw [List.all_eq_true]
              intro y hy
              rw [List.mem_map] at hy
              obtain ⟨x, hx, rfl⟩ := hy
              by_cases hxc : (x.id == gid) = true
              · rw [if_pos hxc]
                exact goalValid_carried now newLid g hgv
              · rw [if_neg hxc]
                exact goalValid_of_letter mo hmoV x hx
            have hmoid : mo.id = oldLid := findById_some_id hfo
            have hmnid : mn.id = newLid := findById_some_id hfn
            have hfo2 : findById store mo.id = some mo := by
              rw [hmoid]
              exact hfo
            have hchk : findById
                (replaceById store
                  { mn with
                    version := mn.version + 1,
                    goals := mn.goals ++ [carriedGoalPush fid g] })
                mo.id =
                some (if (mo.id == mn.id) = true then
                        { mn with
                          version := mn.version + 1,
                          goals := mn.goals ++ [carriedGoalPush fid g] }
                      else mo) := by
              rw [findById_replaceById, hfo2]
              rfl
            by_cases hsame : (mo.id == mn.id) = true
            · have hid_eq : oldLid = newLid := by
                rw [← hmoid, ← hmnid]
                exact beq_iff_eq.mp hsame
              have hmo_eq : mo = mn := by
                have h1 : findById store newLid = some mo := hid_eq ▸ hfo
                rw [hfn] at h1
                exact (Option.some.inj h1).symm
              have hver : (mn.version + 1 == mo.version) = false := by
                rw [hmo_eq]
                simp
              have hbne : (oldLid != newLid) = false := by simp [hid_eq]
              simp [carryGoalForward, findLetterOrFail, verifyUserOwnsLetter,
                saveLetter, carrySpecPrecondAmended, carrySpecPrecond, isOkB,
                hfo, hfn, huo, hun, hg, hv1, hv2, hchk, hsame, hver, hbne,
                -beq_iff_eq]
            · have hne : oldLid ≠ newLid := fun hh =>
                hsame (beq_iff_eq.mpr (by rw [hmoid, hmnid]; exact hh))
              have hver : (mo.version == mo.version) = true := by simp
              have hbne : (oldLid != newLid) = true := by simp [hne]
              simp [carryGoalForward, findLetterOrFail, verifyUserOwnsLetter,
                saveLetter, carrySpecPrecondAmended, carrySpecPrecond, isOkB,
                hfo, hfn, huo, hun, hg, hv1, hv2, hchk, hsame, hver, hbne,
                -beq_iff_eq]

/-- Witness for `carry_forward_failure_characterization`: carrying the
COMPLETED goal of the UNDELIVERED letter 3 onto the distinct letter 4
satisfies the amended precondition and succeeds. -/
theorem carry_forward_failure_characterization_witness :
    isOkB (carryGoalForward 5 9 [demoSelfCarryLetter, demoCarryTargetLetter] 1 3 1 4) = true ∧
    carrySpecPrecondAmended [demoSelfCarryLetter, demoCarryTargetLetter] 1 3 1 4 = true := by
  have h := carry_forward_failure_characterization 5 9
    [demoSelfCarryLetter, demoCarryTargetLetter] 1 3 1 4 (by decide)
  exact ⟨h.trans (by decide), by decide⟩
